import Mathlib

/-!
Verification of the messaging and transaction-protocol layer of the abce
multi-agent simulation framework (`src/abce/messenger.py`).

The embedding models Python dictionaries as insertion-ordered association
lists (`Dict`), the per-agent `Messenger` state as `AgentState`, and each
method of the `Messenger` class as a pure state-passing function.  Python
operations that can raise (`dict.pop`, `del d[k]`, attribute access on a
payload of the wrong shape) are modelled with `Except`.
-/

namespace Abce

/-- Insertion-ordered association list modelling a Python `dict`:
lookup finds the first binding, insert updates an existing binding in place
or appends a fresh one at the end, erase removes the first binding. -/
abbrev Dict (α β : Type) : Type := List (α × β)

namespace Dict

/-- Lookup of the first binding of a key, as `d[k]` / `d.get(k)`. -/
def lookup {α β : Type} [DecidableEq α] (d : Dict α β) (k : α) : Option β :=
  match d with
  | [] => none
  | (k', v) :: rest => if k' = k then some v else lookup rest k

/-- Update in place when the key exists, append at the end otherwise,
as `d[k] = v` on a Python dict. -/
def insert {α β : Type} [DecidableEq α] (d : Dict α β) (k : α) (v : β) : Dict α β :=
  match d with
  | [] => [(k, v)]
  | (k', v') :: rest => if k' = k then (k, v) :: rest else (k', v') :: insert rest k v

/-- Removal of the first binding of a key, as `d.pop(k)` / `del d[k]`. -/
def erase {α β : Type} [DecidableEq α] (d : Dict α β) (k : α) : Dict α β :=
  match d with
  | [] => []
  | (k', v') :: rest => if k' = k then rest else (k', v') :: erase rest k

/-- Lookup with a default, as `defaultdict` access for reading. -/
def getD {α β : Type} [DecidableEq α] (d : Dict α β) (k : α) (v₀ : β) : β :=
  (d.lookup k).getD v₀

end Dict

/-- Agent identity: the `(group, id)` pair Python calls `self.name`. -/
abbrev Identity : Type := String × Nat

/-- The `Message` class: immutable record with sender, receiver, topic and
content; content is opaque to the messaging layer. -/
structure Message where
  sender : Identity
  receiver : Identity
  topic : String
  content : String
deriving DecidableEq, Repr

/-- Offer object as far as this layer reads it: a good, an offer id and the
round in which it was made (used by the lost-message auditor). -/
structure Offer where
  good : String
  id : Nat
  made : Nat
deriving DecidableEq, Repr

/-- Contract object as far as this layer reads it: good, contract id, payer
identity, quantity, price, and the per-round delivery and payment logs. -/
structure Contract where
  good : String
  id : Nat
  pay_group : String
  pay_id : Nat
  quantity : Rat
  price : Rat
  delivered : List Nat
  paid : List Nat
deriving DecidableEq, Repr

/-- Quote object as far as this layer reads it: only its id is used. -/
structure Quote where
  id : Nat
deriving DecidableEq, Repr

/-- Payload of an inbox entry.  Python payloads are dynamically typed; the
clearing dispatcher accesses a different shape of payload for each reserved
kind code, so the embedding is a sum of those shapes. -/
inductive Payload where
  | offer (o : Offer)
  | contract (c : Contract)
  | quote (q : Quote)
  | goodQty (good : String) (qty : Rat)
  | cancel (disc : String) (good : String) (cid : Nat)
  | env (m : Message)
deriving DecidableEq, Repr

/-- One inbox entry: a `(kind-code, payload)` pair. -/
abbrev Entry : Type := String × Payload

/-- One outbox entry: `(receiver, (kind-code, payload))`. -/
abbrev OutEntry : Type := Identity × Entry

/-- State of one agent's `Messenger` together with the market sub-state the
clearing dispatcher mutates.  `msgs` is `_msgs`, `out` is `_out`; the market
fields (`_open_offers_buy`, …, `given_offers`, the inventory) are declared
in sibling mixin classes of the same repository and are modelled here with
the types their uses in `messenger.py` and the spec's data model require
(good-keyed and id-keyed dictionaries with defaultdict semantics). -/
structure AgentState where
  group : String
  id : Nat
  round : Nat
  check_every_round_for_lost_messages : Bool
  msgs : Dict String (List Payload)
  inbox : List Entry
  out : List OutEntry
  open_offers_buy : Dict String (Dict Nat Offer)
  open_offers_sell : Dict String (Dict Nat Offer)
  inventory : Dict String Rat
  quotes : Dict Nat Quote
  contract_offers : Dict String (List Contract)
  contract_offers_made : Dict Nat Contract
  contracts_pay : Dict String (Dict Nat Contract)
  contracts_deliver : Dict String (Dict Nat Contract)
  given_offers : Dict Nat Offer
deriving DecidableEq, Repr

/-- The `(group, id)` pair, Python's `self.name`. -/
def AgentState.name (s : AgentState) : Identity := (s.group, s.id)

/-- Errors a clearing step can raise: a missing dictionary key
(Python `KeyError`) or a payload without the attribute the dispatch
branch reads (Python `AttributeError` / `TypeError`). -/
inductive ClearError where
  | keyError
  | attrError
deriving DecidableEq, Repr

/-- Kind codes the clearing dispatcher reserves; every other string is an
ordinary user topic filed into `msgs`. -/
def reservedKinds : List String :=
  ["!b", "!s", "_p", "_r", "_g", "_q", "!o", "_ac", "_dp", "!d"]

/-- The `send` method: wrap the content in a `Message` stamped with the
caller's own name and append `(receiver, (topic, message))` to the outbox. -/
def send (s : AgentState) (receiver : Identity) (topic : String)
    (content : String) : AgentState :=
  { s with out :=
      s.out ++ [(receiver, (topic, Payload.env ⟨s.name, receiver, topic, content⟩))] }

/-- Iterated `send` of a list of contents to one receiver under one topic. -/
def sendAll (s : AgentState) (receiver : Identity) (topic : String)
    (cs : List String) : AgentState :=
  cs.foldl (fun acc c => send acc receiver topic c) s

/-- The `get_messages` method.  The in-place `shuffle` is modelled by an
explicit reordering function `sh`; the `KeyError` branch of the source first
stores an empty list under the topic and the final `pop` then removes the
binding again.  In both branches the returned list is what `pop` yields and
the topic's binding is gone from `msgs` afterwards. -/
def get_messages (sh : List Payload → List Payload) (s : AgentState)
    (topic : String) : List Payload × AgentState :=
  match s.msgs.lookup topic with
  | some l => (sh l, { s with msgs := s.msgs.erase topic })
  | none => ([], { s with msgs := (s.msgs.insert topic []).erase topic })

/-- Modelled from the spec: `_receive_accept` and `_receive_reject` are
defined in a trade mixin class that is not part of this excerpt.  Per the
dispatcher table of the spec they "resolve the referenced offer": the made
offer the message refers to is removed from the table of offers the agent
made (`given_offers`, the table the auditor later checks for staleness); a
reference to an unknown offer raises. -/
def receive_resolve (s : AgentState) (oid : Nat) : Except ClearError AgentState :=
  match s.given_offers.lookup oid with
  | none => .error .keyError
  | some _ => .ok { s with given_offers := s.given_offers.erase oid }

/-- One dispatch step of `_do_message_clearing` on a single inbox entry,
mirroring the `if typ == ...` chain of the source.  Missing dictionary keys
(`dict.pop`, `del`, plain indexing) and payloads lacking the attributes a
branch reads surface as `ClearError`s, as the corresponding Python
exceptions would. -/
def clearStep (s : AgentState) (e : Entry) : Except ClearError AgentState :=
  let typ := e.1
  let msg := e.2
  if typ = "!b" then
    match msg with
    | .offer o =>
      let tbl := s.open_offers_buy.insert o.good
        ((s.open_offers_buy.getD o.good []).insert o.id o)
      .ok { s with open_offers_buy := tbl }
    | _ => .error .attrError
  else if typ = "!s" then
    match msg with
    | .offer o =>
      let tbl := s.open_offers_sell.insert o.good
        ((s.open_offers_sell.getD o.good []).insert o.id o)
      .ok { s with open_offers_sell := tbl }
    | _ => .error .attrError
  else if typ = "_p" then
    match msg with
    | .offer o => receive_resolve s o.id
    | _ => .error .attrError
  else if typ = "_r" then
    match msg with
    | .offer o => receive_resolve s o.id
    | _ => .error .attrError
  else if typ = "_g" then
    match msg with
    | .goodQty g q =>
      let inv := s.inventory.insert g (s.inventory.getD g 0 + q)
      .ok { s with inventory := inv }
    | _ => .error .attrError
  else if typ = "_q" then
    match msg with
    | .quote q => .ok { s with quotes := s.quotes.insert q.id q }
    | _ => .error .attrError
  else if typ = "!o" then
    match msg with
    | .contract c =>
      let tbl := s.contract_offers.insert c.good (s.contract_offers.getD c.good [] ++ [c])
      .ok { s with contract_offers := tbl }
    | _ => .error .attrError
  else if typ = "_ac" then
    match msg with
    | .contract m =>
      match s.contract_offers_made.lookup m.id with
      | none => .error .keyError
      | some contract =>
        let made := s.contract_offers_made.erase m.id
        if contract.pay_group = s.group ∧ contract.pay_id = s.id then
          let tbl := s.contracts_pay.insert contract.good
            ((s.contracts_pay.getD contract.good []).insert contract.id contract)
          .ok { s with contract_offers_made := made, contracts_pay := tbl }
        else
          let tbl := s.contracts_deliver.insert contract.good
            ((s.contracts_deliver.getD contract.good []).insert contract.id contract)
          .ok { s with contract_offers_made := made, contracts_deliver := tbl }
    | _ => .error .attrError
  else if typ = "_dp" then
    match msg with
    | .contract m =>
      if m.pay_group = s.group ∧ m.pay_id = s.id then
        match (s.contracts_pay.getD m.good []).lookup m.id with
        | none => .error .keyError
        | some c =>
          let inv := s.inventory.insert m.good (s.inventory.getD m.good 0 + m.quantity)
          let tbl := s.contracts_pay.insert m.good
            ((s.contracts_pay.getD m.good []).insert m.id
              { c with delivered := c.delivered ++ [s.round] })
          .ok { s with inventory := inv, contracts_pay := tbl }
      else
        match (s.contracts_deliver.getD m.good []).lookup m.id with
        | none => .error .keyError
        | some c =>
          let inv := s.inventory.insert "money"
            (s.inventory.getD "money" 0 + m.quantity * m.price)
          let tbl := s.contracts_deliver.insert m.good
            ((s.contracts_deliver.getD m.good []).insert m.id
              { c with paid := c.paid ++ [s.round] })
          .ok { s with inventory := inv, contracts_deliver := tbl }
    | _ => .error .attrError
  else if typ = "!d" then
    match msg with
    | .cancel disc g cid =>
      if disc = "r" then
        match (s.contracts_pay.getD g []).lookup cid with
        | none => .error .keyError
        | some _ =>
          let tbl := s.contracts_pay.insert g ((s.contracts_pay.getD g []).erase cid)
          .ok { s with contracts_pay := tbl }
      else if disc = "d" then
        match (s.contracts_deliver.getD g []).lookup cid with
        | none => .error .keyError
        | some _ =>
          let tbl := s.contracts_deliver.insert g ((s.contracts_deliver.getD g []).erase cid)
          .ok { s with contracts_deliver := tbl }
      else .ok s
    | _ => .error .attrError
  else
    .ok { s with msgs := s.msgs.insert typ (s.msgs.getD typ [] ++ [msg]) }

/-- Sequential processing of a list of inbox entries in arrival order; the
first raising entry aborts the pass, as an uncaught Python exception would. -/
def clearInbox (s : AgentState) : List Entry → Except ClearError AgentState
  | [] => .ok s
  | e :: rest =>
    match clearStep s e with
    | .error err => .error err
    | .ok s' => clearInbox s' rest

/-- The `_do_message_clearing` method: process every inbox entry in arrival
order, then `inbox.clear()`. -/
def do_message_clearing (s : AgentState) : Except ClearError AgentState :=
  match clearInbox s s.inbox with
  | .error err => .error err
  | .ok s' => .ok { s' with inbox := [] }

/-- Delivery loop of `_post_messages`: append each outbox entry's
`(kind, payload)` pair to the addressed agent's inbox, in outbox order. -/
def deliverOut (agents : Identity → AgentState) :
    List OutEntry → (Identity → AgentState)
  | [] => agents
  | (name, entry) :: rest =>
    deliverOut
      (fun i => if i = name
        then { agents name with inbox := (agents name).inbox ++ [entry] }
        else agents i) rest

/-- The `_post_messages` method (direct-mode router): deliver the whole
outbox into the registry, then clear the outbox. -/
def post_messages (s : AgentState) (agents : Identity → AgentState) :
    (Identity → AgentState) × AgentState :=
  (deliverOut agents s.out, { s with out := [] })

/-- Partition index `hash(receiver) % processes` of the multiprocessing
sender; the run's hash function is an explicit parameter because Python's
`hash` is fixed for the duration of one interpreter run. -/
def partitionOf (h : Identity → Int) (processes : Nat) (receiver : Identity) : Nat :=
  (h receiver % (processes : Int)).toNat

/-- The `_send_multiprocessing` method: append the outbox entry to the
bucket of the receiver's partition in the partitioned outbox. -/
def send_multiprocessing (h : Identity → Int) (processes : Nat)
    (out : Dict Nat (List OutEntry)) (receiver : Identity) (typ : String)
    (msg : Payload) : Dict Nat (List OutEntry) :=
  out.insert (partitionOf h processes receiver)
    (out.getD (partitionOf h processes receiver) [] ++ [(receiver, (typ, msg))])

/-- Fatal diagnostics of `_check_for_lost_messages`; each carries the
`(group, id)` identity interpolated into the exception message. -/
inductive AuditError where
  | staleOffers (group : String) (id : Nat)
  | lostBuyOffers (group : String) (id : Nat)
  | lostSellOffers (group : String) (id : Nat)
  | lostMessages (group : String) (id : Nat)
deriving DecidableEq, Repr

/-- The agent identity an audit error reports. -/
def AuditError.identity : AuditError → Identity
  | .staleOffers g i => (g, i)
  | .lostBuyOffers g i => (g, i)
  | .lostSellOffers g i => (g, i)
  | .lostMessages g i => (g, i)

/-- Total number of offers across all goods of an open-offer table, as
`sum(len(offers) for offers in table.values())`. -/
def offersCount (d : Dict String (Dict Nat Offer)) : Nat :=
  (d.map (fun p => p.2.length)).sum

/-- Total number of queued payloads across all topics of `msgs`. -/
def msgsCount (d : Dict String (List Payload)) : Nat :=
  (d.map (fun p => p.2.length)).sum

/-- The `_check_for_lost_messages` method: raise on a made offer older than
the current round, then on any offer left in the buy table, the sell table,
or any payload left in a topic queue, in that order. -/
def check_for_lost_messages (s : AgentState) : Except AuditError Unit :=
  if s.given_offers.any (fun p => decide (p.2.made < s.round)) then
    .error (.staleOffers s.group s.id)
  else if 0 < offersCount s.open_offers_buy then
    .error (.lostBuyOffers s.group s.id)
  else if 0 < offersCount s.open_offers_sell then
    .error (.lostSellOffers s.group s.id)
  else if 0 < msgsCount s.msgs then
    .error (.lostMessages s.group s.id)
  else
    .ok ()

/-- Modelled from the spec: the scheduler call site of the auditor is not
part of this excerpt; per the spec the audit is "optional, enabled by
configuration" and runs at round end, so it runs exactly when the
`check_every_round_for_lost_messages` flag stored by the constructor is
set. -/
def end_of_round_audit (s : AgentState) : Except AuditError Unit :=
  if s.check_every_round_for_lost_messages then check_for_lost_messages s
  else .ok ()

/-- Nested lookup in a good-keyed table of id-keyed dictionaries, with the
defaultdict convention that an absent good denotes an empty inner table. -/
def lookup2 {α : Type} (d : Dict String (Dict Nat α)) (g : String) (cid : Nat) :
    Option α :=
  (d.getD g []).lookup cid

/-- Uniqueness of keys, the invariant every Python dict maintains. -/
def Dict.NodupKeys {α β : Type} (d : Dict α β) : Prop :=
  (d.map Prod.fst).Nodup

instance {α β : Type} [DecidableEq α] (d : Dict α β) : Decidable d.NodupKeys :=
  inferInstanceAs (Decidable (d.map Prod.fst).Nodup)

/-- Concrete baseline agent used to instantiate the theorems: identity
`("firm", 3)`, round 5, audit flag on, everything else empty. -/
def exAgent : AgentState :=
  { group := "firm", id := 3, round := 5,
    check_every_round_for_lost_messages := true,
    msgs := [], inbox := [], out := [],
    open_offers_buy := [], open_offers_sell := [],
    inventory := [("money", 10)], quotes := [],
    contract_offers := [], contract_offers_made := [],
    contracts_pay := [], contracts_deliver := [],
    given_offers := [] }

/-- Concrete sender agent with identity `("household", 1)`. -/
def exSender : AgentState :=
  { exAgent with group := "household", id := 1 }

/-- Concrete contract whose payer is `("firm", 3)`. -/
def exContract : Contract :=
  { good := "BRD", id := 7, pay_group := "firm", pay_id := 3,
    quantity := 5, price := 2, delivered := [], paid := [] }

/-- Concrete contract whose payer is someone else. -/
def exContractOther : Contract :=
  { exContract with id := 8, pay_group := "household", pay_id := 1 }

/-- Concrete hash function standing in for one interpreter run's `hash`;
negative on the example identities to exercise the sign convention of the
modulus. -/
def exHash : Identity → Int :=
  fun p => -(p.2 : Int) - 5

/-- Baseline agent holding a made contract offer with id 7. -/
def c2State : AgentState :=
  { exAgent with contract_offers_made := [(7, exContract)] }

/-- Baseline agent with contract 7 filed in the pay track for good "BRD". -/
def c3State : AgentState :=
  { exAgent with contracts_pay := [("BRD", [(7, exContract)])] }

/-- Baseline agent with contracts 7 and 8 filed in the pay track for good
"BRD". -/
def c6State : AgentState :=
  { exAgent with contracts_pay := [("BRD", [(7, exContract), (8, exContractOther)])] }

/-- Concrete envelope from the sender to the baseline agent. -/
def exMsg : Message :=
  ⟨("household", 1), ("firm", 3), "m", "hello"⟩

/-- Baseline agent whose inbox holds a contract-accept entry referencing a
contract id absent from its made-offers table. -/
def c5BadState : AgentState :=
  { exAgent with inbox := [("_ac", .contract exContract)] }

/-- Baseline agent whose inbox holds one ordinary user message. -/
def c5GoodState : AgentState :=
  { exAgent with inbox := [("m", .env exMsg)] }

/-- Baseline agent with an offer left in the buy table at round end. -/
def c4LostState : AgentState :=
  { exAgent with open_offers_buy := [("BRD", [(2, ⟨"BRD", 2, 5⟩)])] }

namespace Dict

theorem lookup_insert_self {α β : Type} [DecidableEq α] (d : Dict α β) (k : α)
    (v : β) : (d.insert k v).lookup k = some v := by
  induction d with
  | nil => simp [insert, lookup]
  | cons p rest ih =>
    by_cases h : p.1 = k
    · simp [insert, lookup, h]
    · simp [insert, lookup, h, ih]

theorem lookup_insert_ne {α β : Type} [DecidableEq α] (d : Dict α β) {k k' : α}
    (v : β) (h : k' ≠ k) : (d.insert k v).lookup k' = d.lookup k' := by
  have hk : ¬ k = k' := Ne.symm h
  induction d with
  | nil => simp [insert, lookup, hk]
  | cons p rest ih =>
    by_cases hp : p.1 = k
    · subst hp
      simp [insert, lookup, hk]
    · simp [insert, lookup, hp, ih]

theorem lookup_erase_ne {α β : Type} [DecidableEq α] (d : Dict α β) {k k' : α}
    (h : k' ≠ k) : (d.erase k).lookup k' = d.lookup k' := by
  have hk : ¬ k = k' := Ne.symm h
  induction d with
  | nil => simp [erase, lookup]
  | cons p rest ih =>
    by_cases hp : p.1 = k
    · subst hp
      simp [erase, lookup, hk]
    · simp [erase, lookup, hp, ih]

theorem lookup_eq_none_iff {α β : Type} [DecidableEq α] (d : Dict α β) (k : α) :
    d.lookup k = none ↔ k ∉ d.map Prod.fst := by
  induction d with
  | nil => simp [lookup]
  | cons p rest ih =>
    by_cases hp : p.1 = k
    · subst hp
      simp [lookup]
    · have hk : ¬ k = p.1 := fun hh => hp hh.symm
      simp [lookup, hp, ih, hk]

theorem lookup_erase_self {α β : Type} [DecidableEq α] (d : Dict α β) (k : α)
    (hd : NodupKeys d) : (d.erase k).lookup k = none := by
  induction d with
  | nil => simp [erase, lookup]
  | cons p rest ih =>
    simp only [NodupKeys, List.map_cons, List.nodup_cons] at hd
    obtain ⟨h1, h2⟩ := hd
    by_cases hp : p.1 = k
    · subst hp
      simpa [erase] using (lookup_eq_none_iff rest p.1).mpr h1
    · simp [erase, lookup, hp, ih h2]

theorem insert_of_lookup_none {α β : Type} [DecidableEq α] (d : Dict α β)
    {k : α} (v : β) (h : d.lookup k = none) : d.insert k v = d ++ [(k, v)] := by
  induction d with
  | nil => simp [insert]
  | cons p rest ih =>
    by_cases hp : p.1 = k
    · simp [lookup, hp] at h
    · simp [lookup, hp] at h
      simp [insert, hp, ih h]

theorem lookup_append_single_self {α β : Type} [DecidableEq α]
    (d : Dict α β) {k : α} (v : β) (h : d.lookup k = none) :
    (d ++ [(k, v)]).lookup k = some v := by
  induction d with
  | nil => simp [lookup]
  | cons p rest ih =>
    by_cases hp : p.1 = k
    · simp [lookup, hp] at h
    · simp [lookup, hp] at h ⊢
      exact ih h

theorem insert_append_single {α β : Type} [DecidableEq α] (d : Dict α β)
    {k : α} (a v : β) (h : d.lookup k = none) :
    (d ++ [(k, a)]).insert k v = d ++ [(k, v)] := by
  induction d with
  | nil => simp [insert]
  | cons p rest ih =>
    by_cases hp : p.1 = k
    · simp [lookup, hp] at h
    · simp [lookup, hp] at h
      simp [insert, hp, ih h]

theorem erase_append_single {α β : Type} [DecidableEq α] (d : Dict α β)
    {k : α} (a : β) (h : d.lookup k = none) : (d ++ [(k, a)]).erase k = d := by
  induction d with
  | nil => simp [erase]
  | cons p rest ih =>
    by_cases hp : p.1 = k
    · simp [lookup, hp] at h
    · simp [lookup, hp] at h
      simp [erase, hp, ih h]

theorem insert_erase_of_lookup_none {α β : Type} [DecidableEq α]
    (d : Dict α β) {k : α} (v : β) (h : d.lookup k = none) :
    (d.insert k v).erase k = d := by
  rw [insert_of_lookup_none d v h, erase_append_single d v h]

end Dict

/-- C8: for every topic that has never received a message, `get_messages`
returns an empty sequence; the function is total, so no error is raised. -/
theorem c8_get_unseen_topic_empty (sh : List Payload → List Payload)
    (s : AgentState) (topic : String) (h : s.msgs.lookup topic = none) :
    (get_messages sh s topic).1 = [] := by
  simp [get_messages, h]

/-- Witness for C8: the baseline agent has no binding for topic "news" and
retrieving it yields the empty sequence. -/
theorem c8_get_unseen_topic_empty_witness :
    Dict.lookup exAgent.msgs "news" = none ∧
    (get_messages (fun l => l) exAgent "news").1 = [] :=
  ⟨rfl, c8_get_unseen_topic_empty (fun l => l) exAgent "news" rfl⟩

/-- C9 as stated is false: after `get_messages` on the never-seen topic
"news", the topic-queue mapping holds no entry for "news" at all — the
`except KeyError` branch does store an empty list under the topic, but the
final `pop` removes that binding again before the call returns. -/
theorem c9_leftover_entry_counterexample :
    ¬ (get_messages (fun l => l) exAgent "news").2.msgs.lookup "news" = some [] := by
  decide

/-- C9 (amended): a call to `get_messages` on a never-seen topic creates an
empty entry for the topic only transiently; the entry is removed by the
`pop` before the call returns, so the topic-queue mapping after the call
equals the mapping before it, with no entry for that topic left behind. -/
theorem c9_unseen_topic_state_unchanged (sh : List Payload → List Payload)
    (s : AgentState) (topic : String) (h : s.msgs.lookup topic = none) :
    (get_messages sh s topic).2.msgs = s.msgs := by
  have h2 := Dict.insert_erase_of_lookup_none s.msgs ([] : List Payload) h
  simp [get_messages, h, h2]

/-- Witness for C9 (amended): the baseline agent has no binding for "news"
and retrieval leaves its topic-queue mapping unchanged. -/
theorem c9_unseen_topic_state_unchanged_witness :
    Dict.lookup exAgent.msgs "news" = none ∧
    (get_messages (fun l => l) exAgent "news").2.msgs = exAgent.msgs :=
  ⟨rfl, c9_unseen_topic_state_unchanged (fun l => l) exAgent "news" rfl⟩

/-- C10: a contract-cancel entry whose payload discriminator is neither "r"
nor "d" is a silent no-op: the dispatch returns the state unchanged — no
contract table is touched, nothing is filed into a topic queue, and no
error is raised. -/
theorem c10_cancel_unknown_disc_noop (s : AgentState) (disc g : String)
    (cid : Nat) (h1 : disc ≠ "r") (h2 : disc ≠ "d") :
    clearStep s ("!d", .cancel disc g cid) = .ok s := by
  simp [clearStep, h1, h2]

/-- Witness for C10 at the discriminator "x". -/
theorem c10_cancel_unknown_disc_noop_witness :
    clearStep exAgent ("!d", .cancel "x" "BRD" 7) = .ok exAgent :=
  c10_cancel_unknown_disc_noop exAgent "x" "BRD" 7 (by decide) (by decide)

/-- C7: in partitioned mode with a fixed positive worker count, the
partition of a receiver identity is a deterministic function of the
identity, lies in `[0, processes)`, and two successive sends to the same
receiver land in the same bucket of the partitioned outbox, in order. -/
theorem c7_partition_stable_and_bounded (h : Identity → Int) (processes : Nat)
    (out : Dict Nat (List OutEntry)) (r : Identity) (t1 t2 : String)
    (m1 m2 : Payload) (hP : 0 < processes) :
    partitionOf h processes r < processes ∧
    (send_multiprocessing h processes (send_multiprocessing h processes out r t1 m1)
        r t2 m2).lookup (partitionOf h processes r) =
      some (out.getD (partitionOf h processes r) [] ++ [(r, (t1, m1)), (r, (t2, m2))]) := by
  constructor
  · have hP' : (0 : Int) < (processes : Int) := by exact_mod_cast hP
    have h1 := Int.emod_nonneg (h r) (by omega : (processes : Int) ≠ 0)
    have h2 := Int.emod_lt_of_pos (h r) hP'
    unfold partitionOf
    omega
  · simp [send_multiprocessing, Dict.getD, Dict.lookup_insert_self]

/-- Witness for C7: three workers, the concrete negative-hash identity
`("firm", 3)` is assigned partition 1 twice and the bucket accumulates both
entries. -/
theorem c7_partition_stable_and_bounded_witness :
    partitionOf exHash 3 ("firm", 3) < 3 ∧
    (send_multiprocessing exHash 3 (send_multiprocessing exHash 3 [] ("firm", 3) "m"
        (.env ⟨("household", 1), ("firm", 3), "m", "a"⟩)) ("firm", 3) "m"
        (.env ⟨("household", 1), ("firm", 3), "m", "b"⟩)).lookup
        (partitionOf exHash 3 ("firm", 3)) =
      some (Dict.getD [] (partitionOf exHash 3 ("firm", 3)) [] ++
        [(("firm", 3), ("m", .env ⟨("household", 1), ("firm", 3), "m", "a"⟩)),
         (("firm", 3), ("m", .env ⟨("household", 1), ("firm", 3), "m", "b"⟩))]) :=
  c7_partition_stable_and_bounded exHash 3 [] ("firm", 3) "m" "m"
    (.env ⟨("household", 1), ("firm", 3), "m", "a"⟩)
    (.env ⟨("household", 1), ("firm", 3), "m", "b"⟩) (by decide)

/-- C2: a contract-accept entry pops the matching entry from the
made-offers table and files the popped contract exactly once: under the pay
track when its payer identity equals the local identity and under the
deliver track otherwise; the rest of the chosen track and the entire other
track are unchanged. -/
theorem c2_contract_accept_filed_once (s : AgentState) (m contract : Contract)
    (h : s.contract_offers_made.lookup m.id = some contract) :
    ∃ s', clearStep s ("_ac", .contract m) = .ok s' ∧
      s'.contract_offers_made = s.contract_offers_made.erase m.id ∧
      (contract.pay_group = s.group ∧ contract.pay_id = s.id →
        lookup2 s'.contracts_pay contract.good contract.id = some contract ∧
        (∀ g' i', ¬ (g' = contract.good ∧ i' = contract.id) →
          lookup2 s'.contracts_pay g' i' = lookup2 s.contracts_pay g' i') ∧
        s'.contracts_deliver = s.contracts_deliver) ∧
      (¬ (contract.pay_group = s.group ∧ contract.pay_id = s.id) →
        lookup2 s'.contracts_deliver contract.good contract.id = some contract ∧
        (∀ g' i', ¬ (g' = contract.good ∧ i' = contract.id) →
          lookup2 s'.contracts_deliver g' i' = lookup2 s.contracts_deliver g' i') ∧
        s'.contracts_pay = s.contracts_pay) := by
  by_cases hpay : contract.pay_group = s.group ∧ contract.pay_id = s.id
  · refine ⟨{ s with
        contract_offers_made := s.contract_offers_made.erase m.id,
        contracts_pay := s.contracts_pay.insert contract.good
          ((s.contracts_pay.getD contract.good []).insert contract.id contract) },
      ?_, rfl, fun _ => ⟨?_, ?_, rfl⟩, fun hn => absurd hpay hn⟩
    · simp [clearStep, h, hpay]
    · simp [lookup2, Dict.getD, Dict.lookup_insert_self]
    · intro g' i' hne
      by_cases hg : g' = contract.good
      · subst hg
        have hi : i' ≠ contract.id := fun hh => hne ⟨rfl, hh⟩
        simp [lookup2, Dict.getD, Dict.lookup_insert_self,
          Dict.lookup_insert_ne _ _ hi]
      · simp [lookup2, Dict.getD, Dict.lookup_insert_ne _ _ hg]
  · refine ⟨{ s with
        contract_offers_made := s.contract_offers_made.erase m.id,
        contracts_deliver := s.contracts_deliver.insert contract.good
          ((s.contracts_deliver.getD contract.good []).insert contract.id contract) },
      ?_, rfl, fun hp => absurd hp hpay, fun _ => ⟨?_, ?_, rfl⟩⟩
    · simp [clearStep, h, hpay]
    · simp [lookup2, Dict.getD, Dict.lookup_insert_self]
    · intro g' i' hne
      by_cases hg : g' = contract.good
      · subst hg
        have hi : i' ≠ contract.id := fun hh => hne ⟨rfl, hh⟩
        simp [lookup2, Dict.getD, Dict.lookup_insert_self,
          Dict.lookup_insert_ne _ _ hi]
      · simp [lookup2, Dict.getD, Dict.lookup_insert_ne _ _ hg]

/-- Witness for C2: the baseline agent holding the made contract offer with
id 7, whose payer is its own identity, accepts it; the conclusion of the
claim theorem holds at this input. -/
theorem c2_contract_accept_filed_once_witness :
    ∃ s', clearStep c2State ("_ac", .contract exContract) = .ok s' ∧
      s'.contract_offers_made = c2State.contract_offers_made.erase exContract.id ∧
      (exContract.pay_group = c2State.group ∧ exContract.pay_id = c2State.id →
        lookup2 s'.contracts_pay exContract.good exContract.id = some exContract ∧
        (∀ g' i', ¬ (g' = exContract.good ∧ i' = exContract.id) →
          lookup2 s'.contracts_pay g' i' = lookup2 c2State.contracts_pay g' i') ∧
        s'.contracts_deliver = c2State.contracts_deliver) ∧
      (¬ (exContract.pay_group = c2State.group ∧ exContract.pay_id = c2State.id) →
        lookup2 s'.contracts_deliver exContract.good exContract.id = some exContract ∧
        (∀ g' i', ¬ (g' = exContract.good ∧ i' = exContract.id) →
          lookup2 s'.contracts_deliver g' i' = lookup2 c2State.contracts_deliver g' i') ∧
        s'.contracts_pay = c2State.contracts_pay) :=
  c2_contract_accept_filed_once c2State exContract exContract (by decide)

/-- C3: a contract-payment/delivery entry, when the message names the local
agent as payer, credits the inventory of the message's good by the quantity
and appends the current round to that contract's delivered-rounds log in
the pay track; otherwise it credits the money inventory by quantity times
price and appends the current round to the paid-rounds log in the deliver
track.  The opposite track is unchanged in both cases. -/
theorem c3_contract_payment_delivery (s : AgentState) (m c : Contract) :
    ((m.pay_group = s.group ∧ m.pay_id = s.id) →
      lookup2 s.contracts_pay m.good m.id = some c →
      ∃ s', clearStep s ("_dp", .contract m) = .ok s' ∧
        s'.inventory.getD m.good 0 = s.inventory.getD m.good 0 + m.quantity ∧
        lookup2 s'.contracts_pay m.good m.id =
          some { c with delivered := c.delivered ++ [s.round] } ∧
        s'.contracts_deliver = s.contracts_deliver) ∧
    (¬ (m.pay_group = s.group ∧ m.pay_id = s.id) →
      lookup2 s.contracts_deliver m.good m.id = some c →
      ∃ s', clearStep s ("_dp", .contract m) = .ok s' ∧
        s'.inventory.getD "money" 0 = s.inventory.getD "money" 0 + m.quantity * m.price ∧
        lookup2 s'.contracts_deliver m.good m.id =
          some { c with paid := c.paid ++ [s.round] } ∧
        s'.contracts_pay = s.contracts_pay) := by
  constructor
  · intro hpay hc
    rw [lookup2] at hc
    refine ⟨{ s with
        inventory := s.inventory.insert m.good (s.inventory.getD m.good 0 + m.quantity),
        contracts_pay := s.contracts_pay.insert m.good
          ((s.contracts_pay.getD m.good []).insert m.id
            { c with delivered := c.delivered ++ [s.round] }) },
      ?_, ?_, ?_, rfl⟩
    · simp [clearStep, hpay, hc]
    · simp [Dict.getD, Dict.lookup_insert_self]
    · simp [lookup2, Dict.getD, Dict.lookup_insert_self]
  · intro hpay hc
    rw [lookup2] at hc
    refine ⟨{ s with
        inventory := s.inventory.insert "money"
          (s.inventory.getD "money" 0 + m.quantity * m.price),
        contracts_deliver := s.contracts_deliver.insert m.good
          ((s.contracts_deliver.getD m.good []).insert m.id
            { c with paid := c.paid ++ [s.round] }) },
      ?_, ?_, ?_, rfl⟩
    · simp [clearStep, hpay, hc]
    · simp [Dict.getD, Dict.lookup_insert_self]
    · simp [lookup2, Dict.getD, Dict.lookup_insert_self]

/-- Witness for C3: the baseline agent is the payer of the filed contract
with id 7 for good "BRD"; the delivery event credits the quantity of "BRD"
and stamps the current round into the delivered-rounds log. -/
theorem c3_contract_payment_delivery_witness :
    ∃ s', clearStep c3State ("_dp", .contract exContract) = .ok s' ∧
      s'.inventory.getD exContract.good 0 =
        c3State.inventory.getD exContract.good 0 + exContract.quantity ∧
      lookup2 s'.contracts_pay exContract.good exContract.id =
        some { exContract with delivered := exContract.delivered ++ [c3State.round] } ∧
      s'.contracts_deliver = c3State.contracts_deliver :=
  (c3_contract_payment_delivery c3State exContract exContract).1 ⟨rfl, rfl⟩ (by decide)

/-- C6: a contract-cancel entry whose discriminator selects a track removes
exactly the referenced contract (by good and contract id) from exactly that
track: afterwards the referenced slot is empty, every other slot of that
track is unchanged, and the other track is untouched. -/
theorem c6_contract_cancel_exact_removal (s : AgentState) (g : String) (cid : Nat) :
    (∀ c, (s.contracts_pay.getD g []).lookup cid = some c →
      Dict.NodupKeys (s.contracts_pay.getD g []) →
      ∃ s', clearStep s ("!d", .cancel "r" g cid) = .ok s' ∧
        lookup2 s'.contracts_pay g cid = none ∧
        (∀ g' cid', ¬ (g' = g ∧ cid' = cid) →
          lookup2 s'.contracts_pay g' cid' = lookup2 s.contracts_pay g' cid') ∧
        s'.contracts_deliver = s.contracts_deliver) ∧
    (∀ c, (s.contracts_deliver.getD g []).lookup cid = some c →
      Dict.NodupKeys (s.contracts_deliver.getD g []) →
      ∃ s', clearStep s ("!d", .cancel "d" g cid) = .ok s' ∧
        lookup2 s'.contracts_deliver g cid = none ∧
        (∀ g' cid', ¬ (g' = g ∧ cid' = cid) →
          lookup2 s'.contracts_deliver g' cid' = lookup2 s.contracts_deliver g' cid') ∧
        s'.contracts_pay = s.contracts_pay) := by
  constructor
  · intro c hc hnd
    have hnone := Dict.lookup_erase_self (s.contracts_pay.getD g []) cid hnd
    simp only [Dict.getD] at hnone
    refine ⟨{ s with contracts_pay :=
        s.contracts_pay.insert g ((s.contracts_pay.getD g []).erase cid) },
      ?_, ?_, ?_, rfl⟩
    · simp [clearStep, hc]
    · simp [lookup2, Dict.getD, Dict.lookup_insert_self, hnone]
    · intro g' cid' hne
      by_cases hg : g' = g
      · subst hg
        have hi : cid' ≠ cid := fun hh => hne ⟨rfl, hh⟩
        simp [lookup2, Dict.getD, Dict.lookup_insert_self,
          Dict.lookup_erase_ne _ hi]
      · simp [lookup2, Dict.getD, Dict.lookup_insert_ne _ _ hg]
  · intro c hc hnd
    have hnone := Dict.lookup_erase_self (s.contracts_deliver.getD g []) cid hnd
    simp only [Dict.getD] at hnone
    refine ⟨{ s with contracts_deliver :=
        s.contracts_deliver.insert g ((s.contracts_deliver.getD g []).erase cid) },
      ?_, ?_, ?_, rfl⟩
    · simp [clearStep, hc]
    · simp [lookup2, Dict.getD, Dict.lookup_insert_self, hnone]
    · intro g' cid' hne
      by_cases hg : g' = g
      · subst hg
        have hi : cid' ≠ cid := fun hh => hne ⟨rfl, hh⟩
        simp [lookup2, Dict.getD, Dict.lookup_insert_self,
          Dict.lookup_erase_ne _ hi]
      · simp [lookup2, Dict.getD, Dict.lookup_insert_ne _ _ hg]

/-- Witness for C6: cancelling contract 7 of good "BRD" from a pay track
holding contracts 7 and 8 removes exactly contract 7, preserves every other
slot (in particular contract 8), and leaves the deliver track untouched. -/
theorem c6_contract_cancel_exact_removal_witness :
    ∃ s', clearStep c6State ("!d", .cancel "r" "BRD" 7) = .ok s' ∧
      lookup2 s'.contracts_pay "BRD" 7 = none ∧
      (∀ g' cid', ¬ (g' = "BRD" ∧ cid' = 7) →
        lookup2 s'.contracts_pay g' cid' = lookup2 c6State.contracts_pay g' cid') ∧
      s'.contracts_deliver = c6State.contracts_deliver :=
  (c6_contract_cancel_exact_removal c6State "BRD" 7).1 exContract (by decide) (by decide)

/-- C4: with the audit flag enabled, the end-of-round auditor raises a
fatal error naming the offending agent's identity whenever the buy table,
the sell table, or any topic queue is nonempty; when all of these are empty
and no made offer is stale, it raises no error and returns normally. -/
theorem c4_auditor_flags_lost_state (s : AgentState)
    (hflag : s.check_every_round_for_lost_messages = true) :
    ((0 < offersCount s.open_offers_buy ∨ 0 < offersCount s.open_offers_sell ∨
        0 < msgsCount s.msgs) →
      ∃ err, end_of_round_audit s = .error err ∧ err.identity = (s.group, s.id)) ∧
    ((offersCount s.open_offers_buy = 0 ∧ offersCount s.open_offers_sell = 0 ∧
        msgsCount s.msgs = 0 ∧ ∀ p ∈ s.given_offers, ¬ p.2.made < s.round) →
      end_of_round_audit s = .ok ()) := by
  constructor
  · intro hne
    by_cases hstale : s.given_offers.any (fun p => decide (p.2.made < s.round)) = true
    · exact ⟨.staleOffers s.group s.id,
        by simp [end_of_round_audit, hflag, check_for_lost_messages, hstale], rfl⟩
    · by_cases hb : 0 < offersCount s.open_offers_buy
      · exact ⟨.lostBuyOffers s.group s.id,
          by simp [end_of_round_audit, hflag, check_for_lost_messages, hstale, hb], rfl⟩
      · by_cases hsell : 0 < offersCount s.open_offers_sell
        · exact ⟨.lostSellOffers s.group s.id,
            by simp [end_of_round_audit, hflag, check_for_lost_messages, hstale, hb,
              hsell], rfl⟩
        · have hm : 0 < msgsCount s.msgs := by
            rcases hne with hx | hx | hx
            · exact absurd hx hb
            · exact absurd hx hsell
            · exact hx
          exact ⟨.lostMessages s.group s.id,
            by simp [end_of_round_audit, hflag, check_for_lost_messages, hstale, hb,
              hsell, hm], rfl⟩
  · rintro ⟨h1, h2, h3, h4⟩
    have hstale : s.given_offers.any (fun p => decide (p.2.made < s.round)) = false := by
      simp only [List.any_eq_false, decide_eq_true_eq]
      exact fun p hp => h4 p hp
    simp [end_of_round_audit, hflag, check_for_lost_messages, hstale, h1, h2, h3]

/-- Witness for C4: the agent that left a buy offer unretrieved is flagged
with its own identity, and the clean baseline agent passes the audit. -/
theorem c4_auditor_flags_lost_state_witness :
    (∃ err, end_of_round_audit c4LostState = .error err ∧
      err.identity = (c4LostState.group, c4LostState.id)) ∧
    end_of_round_audit exAgent = .ok () :=
  ⟨(c4_auditor_flags_lost_state c4LostState rfl).1 (Or.inl (by decide)),
    (c4_auditor_flags_lost_state exAgent rfl).2
      ⟨rfl, rfl, rfl, by intro p hp; cases hp⟩⟩

/-- C5 as stated is false: a contract-accept entry that references a
contract id absent from the made-offers table makes `dict.pop` raise, the
pass aborts before reaching `inbox.clear()`, and no post-state with an
empty inbox is produced. -/
theorem c5_unconditional_clear_counterexample :
    ¬ ∃ s', do_message_clearing c5BadState = .ok s' ∧ s'.inbox = [] := by
  intro hex
  obtain ⟨s', h, _⟩ := hex
  have herr : do_message_clearing c5BadState = .error .keyError := rfl
  rw [herr] at h
  cases h

/-- C5 (amended): whenever the clearing pass completes without raising, the
inbox afterwards is empty, and the result is exactly the in-arrival-order
fold of the dispatch step over the starting inbox (each entry processed
once) followed by the unconditional clear. -/
theorem c5_clearing_drains_inbox (s s' : AgentState)
    (h : do_message_clearing s = .ok s') :
    s'.inbox = [] ∧
      ∃ t, clearInbox s s.inbox = .ok t ∧ s' = { t with inbox := [] } := by
  unfold do_message_clearing at h
  split at h
  · cases h
  · rename_i t hc
    cases h
    exact ⟨rfl, t, hc, rfl⟩

/-- Witness for C5 (amended): clearing an inbox holding one ordinary user
message succeeds, files the message, and leaves the inbox empty. -/
theorem c5_clearing_drains_inbox_witness :
    ({ exAgent with msgs := [("m", [Payload.env exMsg])] } : AgentState).inbox = [] ∧
      ∃ t, clearInbox c5GoodState c5GoodState.inbox = .ok t ∧
        ({ exAgent with msgs := [("m", [Payload.env exMsg])] } : AgentState) =
          { t with inbox := [] } :=
  c5_clearing_drains_inbox c5GoodState
    { exAgent with msgs := [("m", [Payload.env exMsg])] } rfl

/-- Shape of the outbox after a sequence of sends to one receiver under one
topic: the constructed envelopes are appended in order, stamped with the
sender's own name. -/
theorem sendAll_out_eq (s : AgentState) (r : Identity) (T : String)
    (cs : List String) :
    (sendAll s r T cs).out =
      s.out ++ cs.map (fun c => (r, (T, Payload.env ⟨s.name, r, T, c⟩))) := by
  induction cs generalizing s with
  | nil => simp [sendAll]
  | cons c cs ih =>
    have h1 : sendAll s r T (c :: cs) = sendAll (send s r T c) r T cs := rfl
    rw [h1, ih]
    simp [send, AgentState.name]

/-- Direct-mode delivery of an outbox addressed entirely to one receiver:
that receiver's inbox gets every entry appended in order. -/
theorem deliverOut_uniform (aid : Identity) (es : List Entry) :
    ∀ agents : Identity → AgentState,
      deliverOut agents (es.map (fun e => (aid, e))) aid =
        { agents aid with inbox := (agents aid).inbox ++ es } := by
  induction es with
  | nil =>
    intro agents
    simp [deliverOut]
  | cons e es ih =>
    intro agents
    rw [List.map_cons]
    simp only [deliverOut]
    rw [ih]
    simp

/-- A non-reserved kind code takes the generic filing branch of the
dispatcher: the payload is appended to that topic's queue. -/
theorem clearStep_generic (s : AgentState) (T : String) (p : Payload)
    (hT : T ∉ reservedKinds) :
    clearStep s (T, p) =
      .ok { s with msgs := s.msgs.insert T (s.msgs.getD T [] ++ [p]) } := by
  simp only [reservedKinds, List.mem_cons, List.not_mem_nil, or_false, not_or] at hT
  obtain ⟨h1, h2, h3, h4, h5, h6, h7, h8, h9, h10⟩ := hT
  simp [clearStep, h1, h2, h3, h4, h5, h6, h7, h8, h9, h10]

/-- Clearing a run of generic entries for one topic extends that topic's
queue entry in place, entry by entry in arrival order. -/
theorem clearInbox_generic_acc (T : String) (hT : T ∉ reservedKinds)
    (ps : List Payload) :
    ∀ (s : AgentState) (m₀ : Dict String (List Payload)) (acc : List Payload),
      s.msgs = m₀ ++ [(T, acc)] → m₀.lookup T = none →
      clearInbox s (ps.map (fun p => (T, p))) =
        .ok { s with msgs := m₀ ++ [(T, acc ++ ps)] } := by
  induction ps with
  | nil =>
    intro s m₀ acc hs hm
    simp only [List.map_nil, clearInbox, List.append_nil]
    rw [← hs]
  | cons p ps ih =>
    intro s m₀ acc hs hm
    rw [List.map_cons]
    have hstep := clearStep_generic s T p hT
    have hgd : s.msgs.getD T [] = acc := by
      rw [hs, Dict.getD, Dict.lookup_append_single_self m₀ acc hm]
      rfl
    have hs₁ : ({ s with msgs := s.msgs.insert T (s.msgs.getD T [] ++ [p]) } :
        AgentState).msgs = m₀ ++ [(T, acc ++ [p])] := by
      show s.msgs.insert T (s.msgs.getD T [] ++ [p]) = _
      rw [hgd, hs]
      exact Dict.insert_append_single m₀ acc (acc ++ [p]) hm
    simp only [clearInbox, hstep]
    rw [ih _ m₀ (acc ++ [p]) hs₁ hm]
    simp

/-- Clearing generic entries for a topic with no existing queue appends a
fresh queue entry holding all the payloads in order. -/
theorem clearInbox_generic_fresh (T : String) (hT : T ∉ reservedKinds)
    (p₀ : Payload) (ps : List Payload) (s : AgentState)
    (hm : s.msgs.lookup T = none) :
    clearInbox s ((p₀ :: ps).map (fun p => (T, p))) =
      .ok { s with msgs := s.msgs ++ [(T, p₀ :: ps)] } := by
  rw [List.map_cons]
  have hstep := clearStep_generic s T p₀ hT
  have hgd : s.msgs.getD T [] = [] := by
    rw [Dict.getD, hm]
    rfl
  have hs₁ : ({ s with msgs := s.msgs.insert T (s.msgs.getD T [] ++ [p₀]) } :
      AgentState).msgs = s.msgs ++ [(T, [p₀])] := by
    show s.msgs.insert T (s.msgs.getD T [] ++ [p₀]) = _
    rw [hgd]
    simpa using Dict.insert_of_lookup_none s.msgs [p₀] hm
  simp only [clearInbox, hstep]
  rw [clearInbox_generic_acc T hT ps _ s.msgs [p₀] hs₁ hm]
  simp

/-- Composition of a clearing pass over an inbox of generic entries for one
fresh topic with the two subsequent retrievals. -/
theorem clear_get_roundtrip_general (T : String) (hT : T ∉ reservedKinds)
    (sh₁ sh₂ : List Payload → List Payload) (hsh : ∀ l, List.Perm (sh₁ l) l)
    (s : AgentState) (p₀ : Payload) (ps : List Payload)
    (hm : s.msgs.lookup T = none)
    (hin : s.inbox = (p₀ :: ps).map (fun p => (T, p))) :
    ∃ A', do_message_clearing s = .ok A' ∧
      List.Perm (get_messages sh₁ A' T).1 (p₀ :: ps) ∧
      (get_messages sh₂ (get_messages sh₁ A' T).2 T).1 = [] := by
  have hclear := clearInbox_generic_fresh T hT p₀ ps s hm
  have hlook : (s.msgs ++ [(T, p₀ :: ps)] : Dict String (List Payload)).lookup T =
      some (p₀ :: ps) :=
    Dict.lookup_append_single_self _ _ hm
  have herase := Dict.erase_append_single s.msgs (p₀ :: ps) hm
  refine ⟨{ s with msgs := s.msgs ++ [(T, p₀ :: ps)], inbox := [] }, ?_, ?_, ?_⟩
  · unfold do_message_clearing
    rw [hin, hclear]
  · simp only [get_messages, hlook]
    exact hsh _
  · simp only [get_messages, hlook]
    simp [herase, hm]

/-- C1: every multiset of messages sent via `send` under a non-reserved
topic to an agent is, after the direct-mode delivery pass and the clearing
pass, returned exactly (as a multiset — any permutation, contents
unchanged) by the agent's first `get_messages` on that topic, and a second
`get_messages` on the same topic in the same round returns the empty
sequence. -/
theorem c1_send_deliver_clear_get_roundtrip (senderS : AgentState)
    (agents : Identity → AgentState) (aid : Identity) (T : String)
    (cs : List String) (sh₁ sh₂ : List Payload → List Payload)
    (hT : T ∉ reservedKinds) (hout : senderS.out = [])
    (hinbox : (agents aid).inbox = [])
    (hmsgs : (agents aid).msgs.lookup T = none)
    (hsh : ∀ l, List.Perm (sh₁ l) l) :
    ∃ A', do_message_clearing ((post_messages (sendAll senderS aid T cs) agents).1 aid)
        = .ok A' ∧
      List.Perm (get_messages sh₁ A' T).1
        (cs.map (fun c => Payload.env ⟨senderS.name, aid, T, c⟩)) ∧
      (get_messages sh₂ (get_messages sh₁ A' T).2 T).1 = [] := by
  have hA0 : (post_messages (sendAll senderS aid T cs) agents).1 aid =
      { agents aid with inbox :=
          (cs.map (fun c => Payload.env ⟨senderS.name, aid, T, c⟩)).map (fun p => (T, p)) } := by
    show deliverOut agents (sendAll senderS aid T cs).out aid = _
    rw [sendAll_out_eq, hout]
    have hmm : ([] : List OutEntry) ++
          cs.map (fun c => (aid, (T, Payload.env ⟨senderS.name, aid, T, c⟩))) =
        ((cs.map (fun c => Payload.env ⟨senderS.name, aid, T, c⟩)).map
          (fun p => (T, p))).map (fun e => (aid, e)) := by
      simp [List.map_map]
    rw [hmm, deliverOut_uniform aid _ agents, hinbox]
    simp
  rw [hA0]
  cases cs with
  | nil =>
    refine ⟨{ agents aid with inbox := [] }, ?_, ?_, ?_⟩
    · rfl
    · simp [get_messages, hmsgs]
    · have herase := Dict.insert_erase_of_lookup_none (agents aid).msgs
        ([] : List Payload) hmsgs
      simp [get_messages, hmsgs, herase]
  | cons c cs' =>
    simp only [List.map_cons]
    exact clear_get_roundtrip_general T hT sh₁ sh₂ hsh _ _ _ hmsgs rfl

/-- Witness for C1, the spec's concrete scenario: the sender sends "hello"
twice under topic "m" to the baseline agent; after delivery and clearing,
the first retrieval returns both envelopes and the second returns the empty
sequence. -/
theorem c1_send_deliver_clear_get_roundtrip_witness :
    ∃ A', do_message_clearing ((post_messages
        (sendAll exSender ("firm", 3) "m" ["hello", "hello"])
        (fun _ => exAgent)).1 ("firm", 3)) = .ok A' ∧
      List.Perm (get_messages (fun l => l) A' "m").1
        (["hello", "hello"].map
          (fun c => Payload.env ⟨exSender.name, ("firm", 3), "m", c⟩)) ∧
      (get_messages (fun l => l) (get_messages (fun l => l) A' "m").2 "m").1 = [] :=
  c1_send_deliver_clear_get_roundtrip exSender (fun _ => exAgent) ("firm", 3) "m"
    ["hello", "hello"] (fun l => l) (fun l => l) (by decide) rfl rfl rfl
    (fun l => List.Perm.refl l)

end Abce
